import Mathlib

/-!
Verification of the qt-ingot scene/camera core.

Shallow embedding of the Python sources:
  * src/ingot/scene/drawable.py  — shape geometry (Rectangle, Ellipse, Text)
  * src/ingot/scene/manager.py   — the z-ordered scene registry
  * src/ingot/scene/view.py      — the SceneView camera/controller

Python floats are embedded as exact rationals (ℚ); float rounding is out of
scope.  Python functions that can raise at runtime are embedded as
Except-valued functions; in particular float division raises
ZeroDivisionError on a zero divisor, and an unresolved global name raises
NameError.
-/

namespace QtIngot

/-- A point, (x, y) as exact rationals standing for Python floats. -/
abbrev Point := ℚ × ℚ

/-- An RGB color triple (QColor without alpha, which no claim observes). -/
abbrev Color := ℕ × ℕ × ℕ

/-- Python float division: raises ZeroDivisionError when the divisor is zero,
otherwise returns the exact quotient. -/
def pydiv (a b : ℚ) : Except String ℚ :=
  if b = 0 then .error "ZeroDivisionError" else .ok (a / b)

/-! ### Geometry layer: drawable.py concrete shapes

Closed variant type for the concrete shape subclasses whose containment
tests the claims mention.  Each carries the constructor fields its
`contains_point` reads. -/

/-- Shape variants from drawable.py (the fields read by their hit tests). -/
inductive Shape where
  | rect (x y width height : ℚ)
  | ellipse (x y width height : ℚ)
  | text (x y : ℚ)
deriving DecidableEq

/-- Embedding of the contains_point methods of drawable.py.

  * Rectangle.contains_point: `self.x <= px <= self.x + self.width and
    self.y <= py <= self.y + self.height` (closed box test).
  * Ellipse.contains_point: centers the point at
    `(self.x + self.width/2, self.y + self.height/2)`, sets `a = width/2`,
    `b = height/2`, and returns `centered_x**2 / a**2 + centered_y**2 / b**2
    <= 1`.  The two divisions are Python float divisions and raise
    ZeroDivisionError when `a**2` (resp. `b**2`) is zero.
  * Text.contains_point: fixed 100×20 box test anchored at the position. -/
def Shape.contains_point : Shape → Point → Except String Bool
  | .rect x y width height, p =>
      .ok (decide (x ≤ p.1 ∧ p.1 ≤ x + width ∧ y ≤ p.2 ∧ p.2 ≤ y + height))
  | .ellipse x y width height, p => do
      let centered_x := p.1 - (x + width / 2)
      let centered_y := p.2 - (y + height / 2)
      let a := width / 2
      let b := height / 2
      let t1 ← pydiv (centered_x ^ 2) (a ^ 2)
      let t2 ← pydiv (centered_y ^ 2) (b ^ 2)
      return decide (t1 + t2 ≤ 1)
  | .text x y, p =>
      .ok (decide (x ≤ p.1 ∧ p.1 ≤ x + 100 ∧ y ≤ p.2 ∧ p.2 ≤ y + 20))

/-! ### Scene registry: manager.py

The registry and view layers treat a drawable abstractly, exactly as the
scanning code does: it reads `z_index`, `visible`, `locked`, the hit test
`contains_point` (abstracted as a total Boolean predicate on scene points —
every Drawable subclass defines it, so the `hasattr` guards in the source
always succeed) and the optional `color` attribute (absent on the base class
and on WidgetWrapper, hence an Option).  `tag` stands for Python object
identity (Drawable defines no custom equality, so `in`/`remove` compare by
identity). -/

/-- Abstract view of a Drawable as read by manager.py and view.py. -/
structure Drawable where
  tag : ℕ
  z_index : ℤ
  visible : Bool
  locked : Bool
  contains : Point → Bool
  color : Option Color

/-- One step of a stable ascending-by-z_index sort: place x after every
element whose z_index is ≤ its own and before the first strictly greater
one. -/
def insertByZ (x : Drawable) : List Drawable → List Drawable
  | [] => [x]
  | y :: ys => if y.z_index ≤ x.z_index then y :: insertByZ x ys else x :: y :: ys

/-- Embedding of Python's stable `list.sort(key=lambda x: x.z_index)` /
`sorted(..., key=...)`: a stable sort's output (ascending keys, equal keys
kept in input order) is unique, so left-fold stable insertion gives exactly
the list Timsort produces. -/
def pySortByZ (l : List Drawable) : List Drawable :=
  l.foldl (fun acc x => insertByZ x acc) []

/-- SceneManager.get_items: returns `sorted(self._items, key=lambda x: x.z_index)`. -/
def get_items (items : List Drawable) : List Drawable :=
  pySortByZ items

/-- SceneManager.add_item: `self._items.append(item)` then
`self._items.sort(key=lambda x: x.z_index)`. -/
def add_item (items : List Drawable) (item : Drawable) : List Drawable :=
  pySortByZ (items ++ [item])

/-- SceneManager.remove_item: `if item in self._items: self._items.remove(item)` —
removes the first occurrence by object identity, no-op when absent. -/
def remove_item (items : List Drawable) (item : Drawable) : List Drawable :=
  items.eraseP (fun y => y.tag == item.tag)

/-- SceneManager.clear_items: `self._items.clear()`. -/
def clear_items (_items : List Drawable) : List Drawable :=
  []

/-- The eligibility-and-hit predicate used by the hit-test scans:
`item.visible and not item.locked` and `item.contains_point(pos)`
(the `hasattr` guards always hold for Drawables). -/
def hits (pos : Point) (item : Drawable) : Bool :=
  item.visible && !item.locked && item.contains pos

/-- SceneManager.get_item_at_position: `for item in reversed(self._items):`
skipping invisible or locked items, returning the first whose
`contains_point(pos)` holds, else None. -/
def get_item_at_position (items : List Drawable) (pos : Point) : Option Drawable :=
  items.reverse.find? (hits pos)

/-- A mutation of the scene registry through its public operations. -/
inductive SceneOp where
  | add (item : Drawable)
  | remove (item : Drawable)
  | clear

/-- Apply one registry operation to the `_items` list. -/
def applyOp (items : List Drawable) : SceneOp → List Drawable
  | .add item => add_item items item
  | .remove item => remove_item items item
  | .clear => clear_items items

/-- The `_items` list after a sequence of operations on a fresh SceneManager. -/
def runOps (ops : List SceneOp) : List Drawable :=
  ops.foldl applyOp []

/-- The items passed to add_item, in the order they were inserted. -/
def addedItems : List SceneOp → List Drawable
  | [] => []
  | .add item :: rest => item :: addedItems rest
  | .remove _ :: rest => addedItems rest
  | .clear :: rest => addedItems rest

/-- Ascending z_index order (ties left in place). -/
abbrev zSorted (l : List Drawable) : Prop :=
  l.Pairwise (fun a b => a.z_index ≤ b.z_index)

/-! ### Camera / viewport controller: view.py

The SceneView widget state; `width`/`height` are the viewport dimensions
returned by `self.width()` / `self.height()`.  `min_zoom`/`max_zoom` are set
once in `__init__` to 0.01 and 100.0 and never written again, so they are
embedded as constants. -/

/-- SceneView._min_zoom (0.01, exactly 1/100 in the idealized arithmetic). -/
def min_zoom : ℚ := 1 / 100

/-- SceneView._max_zoom (100.0). -/
def max_zoom : ℚ := 100

/-- Mutable state of the SceneView widget. -/
structure SceneView where
  position : Point
  zoom : ℚ
  is_panning : Bool
  pan_start_pos : Point
  camera_start_pos : Point
  last_mouse_pos : Point
  width : ℚ
  height : ℚ
  items : List Drawable

/-- SceneView._screen_to_scene_with_zoom: scene = position + (screen − widget
center) / zoom_level, componentwise. -/
def screen_to_scene_with_zoom (s : SceneView) (screen_pos : Point) (zoom_level : ℚ) : Point :=
  let widget_center_x := s.width / 2
  let widget_center_y := s.height / 2
  let rel_x := screen_pos.1 - widget_center_x
  let rel_y := screen_pos.2 - widget_center_y
  (s.position.1 + rel_x / zoom_level, s.position.2 + rel_y / zoom_level)

/-- SceneView._screen_to_scene: the conversion at the current zoom. -/
def screen_to_scene (s : SceneView) (screen_pos : Point) : Point :=
  screen_to_scene_with_zoom s screen_pos s.zoom

/-- SceneView._scene_to_screen: screen = (scene − position) * zoom + widget
center, componentwise. -/
def scene_to_screen (s : SceneView) (scene_pos : Point) : Point :=
  let widget_center_x := s.width / 2
  let widget_center_y := s.height / 2
  ((scene_pos.1 - s.position.1) * s.zoom + widget_center_x,
   (scene_pos.2 - s.position.2) * s.zoom + widget_center_y)

/-- SceneView._zoom_to_cursor: records the scene point under the cursor at
the old zoom, clamps the new zoom to [min_zoom, max_zoom], recomputes the
scene point under the cursor at the new zoom but old camera position, and
shifts the camera by the negated drift. -/
def zoom_to_cursor (s : SceneView) (cursor_pos : Point) (zoom_factor : ℚ) : SceneView :=
  let old_position := s.position
  let scene_pos_before := screen_to_scene s cursor_pos
  let new_zoom := max min_zoom (min max_zoom (s.zoom * zoom_factor))
  let scene_pos_after := screen_to_scene_with_zoom s cursor_pos new_zoom
  let delta_scene := (scene_pos_after.1 - scene_pos_before.1,
                      scene_pos_after.2 - scene_pos_before.2)
  { s with
    zoom := new_zoom
    position := (old_position.1 - delta_scene.1, old_position.2 - delta_scene.2) }

/-- The status snapshot dict built by SceneView._emit_status. -/
structure StatusData where
  screen_pos : Point
  scene_pos : Point
  color : Color
  zoom : ℚ

/-- The color sampling of SceneView._emit_status: default gray (100,100,100);
scan `reversed(self._scene_manager.get_items())` for the first visible,
unlocked item containing the cursor's scene position; if it has a `color`
attribute use it, and stop at the first hit either way. -/
def sampled_color (s : SceneView) (scene_pos : Point) : Color :=
  match (get_items s.items).reverse.find? (hits scene_pos) with
  | some item => item.color.getD (100, 100, 100)
  | none => (100, 100, 100)

/-- SceneView._emit_status: the snapshot emitted on the status_updated
signal — screen position, scene position under the cursor, sampled color,
and current zoom. -/
def emit_status (s : SceneView) : StatusData :=
  let scene_pos := screen_to_scene s s.last_mouse_pos
  { screen_pos := s.last_mouse_pos
    scene_pos := scene_pos
    color := sampled_color s scene_pos
    zoom := s.zoom }

/-- SceneView.mouseMoveEvent: records the cursor, updates the camera from
the pan anchors when panning, and emits exactly one status snapshot.
Returns the new state together with the list of snapshots emitted while
handling the event. -/
def mouseMoveEvent (s : SceneView) (mouse_pos : Point) : SceneView × List StatusData :=
  let s1 := { s with last_mouse_pos := mouse_pos }
  let s2 :=
    if s1.is_panning then
      let screen_delta := (mouse_pos.1 - s1.pan_start_pos.1, mouse_pos.2 - s1.pan_start_pos.2)
      let scene_delta := (-screen_delta.1 / s1.zoom, -screen_delta.2 / s1.zoom)
      { s1 with position := (s1.camera_start_pos.1 + scene_delta.1,
                             s1.camera_start_pos.2 + scene_delta.2) }
    else s1
  (s2, [emit_status s2])

/-- SceneView.wheelEvent: zooms to the cursor by 1.25 on wheel-up and 1/1.25
on wheel-down, then accepts the event.  The handler never calls
`_emit_status` (nor does `_zoom_to_cursor`), so the list of snapshots
emitted while handling a wheel event is empty. -/
def wheelEvent (s : SceneView) (mouse_pos : Point) (angleDeltaY : ℤ) :
    SceneView × List StatusData :=
  let s1 :=
    if angleDeltaY > 0 then zoom_to_cursor s mouse_pos (5 / 4)
    else zoom_to_cursor s mouse_pos (4 / 5)
  (s1, [])

/-- Mouse buttons distinguished by the press/release handlers. -/
inductive Button where
  | left
  | middle
  | right
deriving DecidableEq

/-- SceneView.mousePressEvent: on middle button, or left button with the Alt
modifier, records the pan anchors and raises the pan flag; otherwise
converts the click to scene coordinates, scans `reversed(get_items())` for
the first visible, unlocked item containing it, and dispatches `on_clicked`
to that item (every Drawable has `on_clicked`).  Always records the cursor.
Returns the new state together with the tag of the item dispatched to, if
any. -/
def mousePressEvent (s : SceneView) (press_pos : Point) (button : Button)
    (alt_modifier : Bool) : SceneView × Option ℕ :=
  if button = Button.middle ∨ (button = Button.left ∧ alt_modifier) then
    ({ s with
        pan_start_pos := press_pos
        camera_start_pos := s.position
        is_panning := true
        last_mouse_pos := press_pos }, none)
  else
    let scene_pos := screen_to_scene s press_pos
    let clicked := (get_items s.items).reverse.find? (hits scene_pos)
    ({ s with last_mouse_pos := press_pos }, clicked.map (·.tag))

/-- SceneView.mouseReleaseEvent.  The handler's guard is
`event.button() == MiddleButton or (event.button() == LeftButton and
(self._is_panning and QApplication.keyboardModifiers() & AltModifier))`,
evaluated left to right with short-circuiting.  `QApplication` is imported
only inside `mousePressEvent` (a function-local binding) and is bound
neither at module scope nor in builtins, so evaluating it here raises
NameError; that evaluation is reached exactly when a left-button release
arrives while `_is_panning` is true. -/
def mouseReleaseEvent (s : SceneView) (button : Button) : Except String SceneView :=
  if button = Button.middle then
    .ok { s with
            is_panning := false
            pan_start_pos := (0, 0)
            camera_start_pos := (0, 0) }
  else if button = Button.left then
    if s.is_panning then
      .error "NameError: name QApplication is not defined"
    else .ok s
  else .ok s

/-! ### Theorems -/

/-- The clamped zoom produced by zoom_to_cursor is at least min_zoom, hence
positive. -/
lemma clamped_zoom_pos (z : ℚ) : 0 < max min_zoom (min max_zoom z) := by
  have h : min_zoom ≤ max min_zoom (min max_zoom z) := le_max_left _ _
  have h0 : (0 : ℚ) < min_zoom := by norm_num [min_zoom]
  exact lt_of_lt_of_le h0 h

/-- C2.  Transform invertibility: with any camera position, any viewport
size and any zoom in [0.01, 100.0], scene_to_screen and screen_to_scene are
exact mutual inverses. -/
theorem C2_transform_invertibility (s : SceneView) (p q : Point)
    (h1 : min_zoom ≤ s.zoom) (h2 : s.zoom ≤ max_zoom) :
    scene_to_screen s (screen_to_scene s p) = p ∧
    screen_to_scene s (scene_to_screen s q) = q := by
  have hz : s.zoom ≠ 0 := by
    have h0 : (0 : ℚ) < min_zoom := by norm_num [min_zoom]
    exact (lt_of_lt_of_le h0 h1).ne'
  unfold scene_to_screen screen_to_scene screen_to_scene_with_zoom
  constructor <;> (rw [Prod.ext_iff]; constructor <;> (dsimp only; field_simp; try ring))

/-- C2 witness at a concrete state and points. -/
theorem C2_transform_invertibility_witness :
    scene_to_screen
      { position := (7, -3), zoom := 2, is_panning := false, pan_start_pos := (0, 0),
        camera_start_pos := (0, 0), last_mouse_pos := (0, 0), width := 400, height := 300,
        items := [] }
      (screen_to_scene
        { position := (7, -3), zoom := 2, is_panning := false, pan_start_pos := (0, 0),
          camera_start_pos := (0, 0), last_mouse_pos := (0, 0), width := 400, height := 300,
          items := [] } (13, 57)) = (13, 57) :=
  (C2_transform_invertibility _ (13, 57) (0, 0) (by norm_num [min_zoom])
    (by norm_num [max_zoom])).1

/-- C1.  Zoom-to-cursor invariance: for every camera position, every zoom in
[0.01, 100.0], every cursor screen point and every positive factor, the
scene point under the cursor after _zoom_to_cursor (computed with the new
camera position and new clamped zoom) equals the scene point under the
cursor before it. -/
theorem C1_zoom_to_cursor_invariance (s : SceneView) (cursor : Point) (factor : ℚ)
    (h1 : min_zoom ≤ s.zoom) (h2 : s.zoom ≤ max_zoom) (hf : 0 < factor) :
    screen_to_scene (zoom_to_cursor s cursor factor) cursor = screen_to_scene s cursor := by
  have hz : s.zoom ≠ 0 := by
    have h0 : (0 : ℚ) < min_zoom := by norm_num [min_zoom]
    exact (lt_of_lt_of_le h0 h1).ne'
  have hz' : max min_zoom (min max_zoom (s.zoom * factor)) ≠ 0 :=
    (clamped_zoom_pos (s.zoom * factor)).ne'
  unfold zoom_to_cursor screen_to_scene screen_to_scene_with_zoom
  rw [Prod.ext_iff]
  constructor <;> (dsimp only; field_simp; ring)

/-- C1 witness at a concrete state, cursor and factor. -/
theorem C1_zoom_to_cursor_invariance_witness :
    screen_to_scene
      (zoom_to_cursor
        { position := (5, 6), zoom := 1, is_panning := false, pan_start_pos := (0, 0),
          camera_start_pos := (0, 0), last_mouse_pos := (0, 0), width := 400, height := 300,
          items := [] } (120, 80) (5 / 4)) (120, 80) =
    screen_to_scene
      { position := (5, 6), zoom := 1, is_panning := false, pan_start_pos := (0, 0),
        camera_start_pos := (0, 0), last_mouse_pos := (0, 0), width := 400, height := 300,
        items := [] } (120, 80) :=
  C1_zoom_to_cursor_invariance _ (120, 80) (5 / 4) (by norm_num [min_zoom])
    (by norm_num [max_zoom]) (by norm_num)

/-- C10.  Pan-anchor invariance: while panning with pan anchors P0 (screen)
and C0 (camera at pan start), after a mouse move to M the scene point under
the cursor, computed with the updated camera position and unchanged zoom,
equals the scene point that was under P0 with camera C0. -/
theorem C10_pan_anchor_invariance (s : SceneView) (M : Point)
    (hp : s.is_panning = true) (h1 : min_zoom ≤ s.zoom) (h2 : s.zoom ≤ max_zoom) :
    screen_to_scene (mouseMoveEvent s M).1 M =
      screen_to_scene { s with position := s.camera_start_pos } s.pan_start_pos := by
  have hz : s.zoom ≠ 0 := by
    have h0 : (0 : ℚ) < min_zoom := by norm_num [min_zoom]
    exact (lt_of_lt_of_le h0 h1).ne'
  unfold mouseMoveEvent screen_to_scene screen_to_scene_with_zoom
  rw [Prod.ext_iff]
  simp only [hp, if_true]
  constructor <;> (dsimp only; field_simp; ring)

/-- C10 witness at a concrete panning state and mouse position. -/
theorem C10_pan_anchor_invariance_witness :
    screen_to_scene
      (mouseMoveEvent
        { position := (1, 2), zoom := 2, is_panning := true, pan_start_pos := (10, 20),
          camera_start_pos := (1, 2), last_mouse_pos := (10, 20), width := 400, height := 300,
          items := [] } (30, 44)).1 (30, 44) =
    screen_to_scene
      { position := (1, 2), zoom := 2, is_panning := true, pan_start_pos := (10, 20),
        camera_start_pos := (1, 2), last_mouse_pos := (10, 20), width := 400, height := 300,
        items := [] } (10, 20) := by
  have h := C10_pan_anchor_invariance
    { position := (1, 2), zoom := 2, is_panning := true, pan_start_pos := (10, 20),
      camera_start_pos := (1, 2), last_mouse_pos := (10, 20), width := 400, height := 300,
      items := [] } (30, 44) rfl (by norm_num [min_zoom]) (by norm_num [max_zoom])
  simpa using h

/-- When neither squared half-axis is zero the two divisions succeed, and
Ellipse.contains_point returns exactly the normalized quadratic test. -/
lemma ellipse_contains_point_eq (x y width height : ℚ) (p : Point)
    (hw : (width / 2) ^ 2 ≠ 0) (hh : (height / 2) ^ 2 ≠ 0) :
    Shape.contains_point (Shape.ellipse x y width height) p =
      Except.ok (decide ((p.1 - (x + width / 2)) ^ 2 / ((width / 2) ^ 2) +
                         (p.2 - (y + height / 2)) ^ 2 / ((height / 2) ^ 2) ≤ 1)) := by
  simp only [Shape.contains_point, pydiv, if_neg hw, if_neg hh, bind, Except.bind,
    pure, Except.pure]

/-- C6 counterexample.  The claim asserts that for the Ellipse at (0,0)
with width 100 and height 50, contains_point((0,0)) and
contains_point((49,0)) are true.  In the source the position is the
top-left corner, so the center is (50,25): both points evaluate to false
((0,0) gives 1 + 1 = 2 > 1, (49,0) gives 1/2500 + 1 > 1). -/
theorem C6_ellipse_counterexample :
    Shape.contains_point (Shape.ellipse 0 0 100 50) (0, 0) = Except.ok false ∧
    Shape.contains_point (Shape.ellipse 0 0 100 50) (49, 0) = Except.ok false := by
  constructor <;>
    (rw [ellipse_contains_point_eq _ _ _ _ _ (by norm_num) (by norm_num)]
     simp only [Except.ok.injEq, decide_eq_false_iff_not]
     norm_num)

/-- C6 amended.  For the Ellipse at (0,0) with width 100 and height 50 the
position is the top-left corner and the center (cx,cy) = (x+width/2,
y+height/2) = (50,25).  The center (50,25) is contained; the point 49 units
right of the center, (99,25), is contained; the point 60 units right of the
center, (110,25), is not; and the originally named points (0,0), (60,0) and
(49,0) are all not contained. -/
theorem C6_ellipse_amended :
    Shape.contains_point (Shape.ellipse 0 0 100 50) (50, 25) = Except.ok true ∧
    Shape.contains_point (Shape.ellipse 0 0 100 50) (99, 25) = Except.ok true ∧
    Shape.contains_point (Shape.ellipse 0 0 100 50) (110, 25) = Except.ok false ∧
    Shape.contains_point (Shape.ellipse 0 0 100 50) (0, 0) = Except.ok false ∧
    Shape.contains_point (Shape.ellipse 0 0 100 50) (60, 0) = Except.ok false ∧
    Shape.contains_point (Shape.ellipse 0 0 100 50) (49, 0) = Except.ok false := by
  refine ⟨?_, ?_, ?_, ?_, ?_, ?_⟩ <;>
    (rw [ellipse_contains_point_eq _ _ _ _ _ (by norm_num) (by norm_num)]
     simp only [Except.ok.injEq, decide_eq_false_iff_not, decide_eq_true_eq]
     norm_num)

/-- C7 counterexample.  The claim asserts totality of contains_point for
every drawable satisfying the invariant width ≥ 0 and height ≥ 0.  The
Ellipse with width 0 satisfies that invariant, yet its contains_point
divides by (width/2)**2 = 0 and raises ZeroDivisionError. -/
theorem C7_totality_counterexample :
    (0 : ℚ) ≥ 0 ∧ (100 : ℚ) ≥ 0 ∧
    Shape.contains_point (Shape.ellipse 0 0 0 100) (5, 5) =
      Except.error "ZeroDivisionError" := by
  refine ⟨le_refl 0, by norm_num, ?_⟩
  simp only [Shape.contains_point, pydiv, bind, Except.bind]
  norm_num

/-- C7 amended.  For every Ellipse with width > 0 and height > 0 and every
point, contains_point returns (without failing) exactly the normalized
quadratic test, and the Rectangle box test is total for every point. -/
theorem C7_totality_amended (x y width height : ℚ) (p : Point)
    (hw : 0 < width) (hh : 0 < height) :
    Shape.contains_point (Shape.ellipse x y width height) p =
      Except.ok (decide ((p.1 - (x + width / 2)) ^ 2 / ((width / 2) ^ 2) +
                         (p.2 - (y + height / 2)) ^ 2 / ((height / 2) ^ 2) ≤ 1)) ∧
    Shape.contains_point (Shape.rect x y width height) p =
      Except.ok (decide (x ≤ p.1 ∧ p.1 ≤ x + width ∧ y ≤ p.2 ∧ p.2 ≤ y + height)) := by
  constructor
  · exact ellipse_contains_point_eq x y width height p (by positivity) (by positivity)
  · rfl

/-- C7 amended witness at a concrete ellipse, rectangle and point. -/
theorem C7_totality_amended_witness :
    (0 : ℚ) < 100 ∧ (0 : ℚ) < 50 ∧
    Shape.contains_point (Shape.ellipse 0 0 100 50) (50, 25) =
      Except.ok (decide (((50 : ℚ) - (0 + 100 / 2)) ^ 2 / ((100 / 2) ^ 2 : ℚ) +
                         ((25 : ℚ) - (0 + 50 / 2)) ^ 2 / ((50 / 2) ^ 2 : ℚ) ≤ 1)) :=
  ⟨by norm_num, by norm_num,
    (C7_totality_amended 0 0 100 50 (50, 25) (by norm_num) (by norm_num)).1⟩

/-- C5.  The claim says a pointer-up of the pan-initiating button always
succeeds and returns the machine to Idle.  In the source, releasing the
left button of an Alt+Left pan (the state reached by mousePressEvent with
the Alt modifier) evaluates the unbound global QApplication and raises
NameError instead; the middle-button release and the unmatched left-button
release (no pan in progress) do reach Idle. -/
theorem C5_release_while_alt_left_pan_raises :
    mouseReleaseEvent
      ((mousePressEvent
        { position := (0, 0), zoom := 1, is_panning := false, pan_start_pos := (0, 0),
          camera_start_pos := (0, 0), last_mouse_pos := (0, 0), width := 400, height := 300,
          items := [] } (3, 4) Button.left true).1) Button.left
      = Except.error "NameError: name QApplication is not defined" ∧
    mouseReleaseEvent
      ((mousePressEvent
        { position := (0, 0), zoom := 1, is_panning := false, pan_start_pos := (0, 0),
          camera_start_pos := (0, 0), last_mouse_pos := (0, 0), width := 400, height := 300,
          items := [] } (3, 4) Button.left true).1) Button.middle
      = Except.ok
        { position := (0, 0), zoom := 1, is_panning := false, pan_start_pos := (0, 0),
          camera_start_pos := (0, 0), last_mouse_pos := (3, 4), width := 400, height := 300,
          items := [] } ∧
    mouseReleaseEvent
      { position := (0, 0), zoom := 1, is_panning := false, pan_start_pos := (0, 0),
        camera_start_pos := (0, 0), last_mouse_pos := (0, 0), width := 400, height := 300,
        items := [] } Button.left
      = Except.ok
        { position := (0, 0), zoom := 1, is_panning := false, pan_start_pos := (0, 0),
          camera_start_pos := (0, 0), last_mouse_pos := (0, 0), width := 400, height := 300,
          items := [] } := by
  refine ⟨rfl, rfl, rfl⟩

/-- C4 counterexample.  The claim says every zoom-changing input event —
including a wheel event — makes the viewport emit exactly one status
snapshot.  A wheel-up at a concrete state changes the zoom from 1 to 5/4
yet the handler emits no snapshot at all. -/
theorem C4_wheel_emits_nothing_counterexample :
    (wheelEvent
      { position := (0, 0), zoom := 1, is_panning := false, pan_start_pos := (0, 0),
        camera_start_pos := (0, 0), last_mouse_pos := (0, 0), width := 400, height := 300,
        items := [] } (0, 0) 120).1.zoom = 5 / 4 ∧
    (wheelEvent
      { position := (0, 0), zoom := 1, is_panning := false, pan_start_pos := (0, 0),
        camera_start_pos := (0, 0), last_mouse_pos := (0, 0), width := 400, height := 300,
        items := [] } (0, 0) 120).2.length = 0 := by
  constructor
  · show max min_zoom (min max_zoom (1 * (5 / 4))) = 5 / 4
    norm_num [min_zoom, max_zoom]
  · rfl

/-- C4 amended.  Wheel events change the zoom but emit no status snapshot;
a mouse-move event emits exactly one snapshot, and that snapshot carries
the scene position under the cursor, the sampled color at that position
and the current zoom of the post-event state. -/
theorem C4_status_emission_amended (s : SceneView) (pos : Point) (dy : ℤ) :
    (wheelEvent s pos dy).2 = [] ∧
    (mouseMoveEvent s pos).2.length = 1 ∧
    ∀ st ∈ (mouseMoveEvent s pos).2,
      st.screen_pos = pos ∧
      st.scene_pos = screen_to_scene (mouseMoveEvent s pos).1 pos ∧
      st.color = sampled_color (mouseMoveEvent s pos).1 st.scene_pos ∧
      st.zoom = (mouseMoveEvent s pos).1.zoom := by
  refine ⟨rfl, rfl, ?_⟩
  intro st hst
  simp only [mouseMoveEvent, List.mem_singleton] at hst
  subst hst
  by_cases hp : s.is_panning <;>
    simp [mouseMoveEvent, emit_status, hp, screen_to_scene]

/-- C4 amended witness: the amended emission facts at a concrete state. -/
theorem C4_status_emission_amended_witness :
    (wheelEvent
      { position := (0, 0), zoom := 1, is_panning := false, pan_start_pos := (0, 0),
        camera_start_pos := (0, 0), last_mouse_pos := (0, 0), width := 400, height := 300,
        items := [] } (1, 2) 120).2 = [] :=
  (C4_status_emission_amended
    { position := (0, 0), zoom := 1, is_panning := false, pan_start_pos := (0, 0),
      camera_start_pos := (0, 0), last_mouse_pos := (0, 0), width := 400, height := 300,
      items := [] } (1, 2) 120).1

/-- Membership is preserved by stable insertion. -/
lemma mem_insertByZ {a x : Drawable} {l : List Drawable} :
    a ∈ insertByZ x l ↔ a = x ∨ a ∈ l := by
  induction l with
  | nil => simp [insertByZ]
  | cons y ys ih =>
    by_cases h : y.z_index ≤ x.z_index
    · simp only [insertByZ, if_pos h, List.mem_cons, ih]
      try tauto
    · simp only [insertByZ, if_neg h, List.mem_cons]
      try tauto

/-- Stable insertion preserves ascending z order. -/
lemma insertByZ_sorted {x : Drawable} {l : List Drawable} (h : zSorted l) :
    zSorted (insertByZ x l) := by
  induction l with
  | nil => simp [insertByZ]
  | cons y ys ih =>
    replace h := List.pairwise_cons.mp h
    by_cases hc : y.z_index ≤ x.z_index
    · simp only [insertByZ, if_pos hc]
      refine List.pairwise_cons.mpr ⟨?_, ih h.2⟩
      intro z hz
      rcases mem_insertByZ.mp hz with hz | hz
      · exact hz ▸ hc
      · exact h.1 z hz
    · simp only [insertByZ, if_neg hc]
      refine List.pairwise_cons.mpr ⟨?_, List.pairwise_cons.mpr h⟩
      intro z hz
      have hxy : x.z_index ≤ y.z_index := le_of_lt (not_le.mp hc)
      rcases List.mem_cons.mp hz with hz | hz
      · exact hz ▸ hxy
      · exact le_trans hxy (h.1 z hz)

/-- When the new item's z_index dominates the list, stable insertion appends. -/
lemma insertByZ_of_all_le {x : Drawable} {l : List Drawable}
    (h : ∀ y ∈ l, y.z_index ≤ x.z_index) :
    insertByZ x l = l ++ [x] := by
  induction l with
  | nil => rfl
  | cons y ys ih =>
    have hy : y.z_index ≤ x.z_index := h y (by simp)
    simp only [insertByZ, if_pos hy, List.cons_append, List.cons.injEq, true_and]
    exact ih fun z hz => h z (by simp [hz])

/-- Sorting a list extended on the right is inserting into the sorted list. -/
lemma pySortByZ_append_singleton (l : List Drawable) (x : Drawable) :
    pySortByZ (l ++ [x]) = insertByZ x (pySortByZ l) := by
  simp [pySortByZ, List.foldl_append]

/-- The stable sort always yields an ascending-z list. -/
lemma pySortByZ_sorted (l : List Drawable) : zSorted (pySortByZ l) := by
  induction l using List.reverseRecOn with
  | nil => simp [pySortByZ]
  | append_singleton l a ih =>
    rw [pySortByZ_append_singleton]
    exact insertByZ_sorted ih

/-- The stable sort fixes an already ascending list. -/
lemma pySortByZ_eq_self {l : List Drawable} (h : zSorted l) : pySortByZ l = l := by
  induction l using List.reverseRecOn with
  | nil => rfl
  | append_singleton l a ih =>
    replace h := List.pairwise_append.mp h
    rw [pySortByZ_append_singleton, ih h.1,
      insertByZ_of_all_le fun y hy => h.2.2 y hy a (by simp)]

/-- Inserting into an ascending list puts the new item after every earlier
item of its own z_index: filtering any z class commutes with the insertion,
with the new item appended when it belongs to the class. -/
lemma filter_insertByZ (x : Drawable) (l : List Drawable) (v : ℤ) (h : zSorted l) :
    (insertByZ x l).filter (fun y => y.z_index == v) =
      if x.z_index = v then l.filter (fun y => y.z_index == v) ++ [x]
      else l.filter (fun y => y.z_index == v) := by
  induction l with
  | nil => by_cases hx : x.z_index = v <;> simp [insertByZ, hx]
  | cons y ys ih =>
    replace h := List.pairwise_cons.mp h
    by_cases hc : y.z_index ≤ x.z_index
    · simp only [insertByZ, if_pos hc, List.filter_cons, ih h.2]
      by_cases hx : x.z_index = v <;> by_cases hy : y.z_index = v <;>
        simp [hx, hy]
    · simp only [insertByZ, if_neg hc]
      by_cases hx : x.z_index = v
      · have hempty : (y :: ys).filter (fun w => w.z_index == v) = [] := by
          rw [List.filter_eq_nil_iff]
          intro w hw
          have hyw : y.z_index ≤ w.z_index := by
            rcases List.mem_cons.mp hw with hw | hw
            · exact hw ▸ le_refl _
            · exact h.1 w hw
          have : v < w.z_index := lt_of_lt_of_le (hx ▸ not_le.mp hc) hyw
          simp only [beq_iff_eq]
          omega
        simp [List.filter_cons, hx, hempty]
      · simp [List.filter_cons, hx]

/-- Registry invariant, propagated over an arbitrary operation suffix: from
any ascending `_items` state whose z classes are subsequences of the z
classes of an insertion history A, running more operations keeps `_items`
ascending and keeps every z class a subsequence of the extended insertion
history. -/
lemma foldl_applyOp_invariant (ops : List SceneOp) (s A : List Drawable)
    (hs : zSorted s)
    (hf : ∀ v : ℤ, List.Sublist (s.filter (fun y => y.z_index == v))
                                (A.filter (fun y => y.z_index == v))) :
    zSorted (ops.foldl applyOp s) ∧
    ∀ v : ℤ, List.Sublist ((ops.foldl applyOp s).filter (fun y => y.z_index == v))
                          ((A ++ addedItems ops).filter (fun y => y.z_index == v)) := by
  induction ops generalizing s A with
  | nil => exact ⟨hs, fun v => by simpa [addedItems] using hf v⟩
  | cons op rest ih =>
    cases op with
    | add item =>
      have hstep : applyOp s (SceneOp.add item) = insertByZ item s := by
        simp [applyOp, add_item, pySortByZ_append_singleton, pySortByZ_eq_self hs]
      have hs' : zSorted (insertByZ item s) := insertByZ_sorted hs
      have hf' : ∀ v : ℤ,
          List.Sublist ((insertByZ item s).filter (fun y => y.z_index == v))
                       ((A ++ [item]).filter (fun y => y.z_index == v)) := by
        intro v
        rw [filter_insertByZ _ _ _ hs, List.filter_append]
        by_cases hx : item.z_index = v
        · simp only [if_pos hx, List.filter_cons, List.filter_nil, hx, beq_self_eq_true,
            if_true]
          exact (hf v).append (List.Sublist.refl _)
        · simp only [if_neg hx, List.filter_cons, List.filter_nil]
          rw [if_neg (by simpa using hx)]
          simpa using hf v
      have hrest := ih (insertByZ item s) (A ++ [item]) hs' hf'
      rw [List.foldl_cons, hstep]
      refine ⟨hrest.1, fun v => ?_⟩
      have := hrest.2 v
      rwa [show (A ++ [item]) ++ addedItems rest = A ++ addedItems (SceneOp.add item :: rest) by
        simp [addedItems]] at this
    | remove item =>
      have hstep : applyOp s (SceneOp.remove item) =
          s.eraseP (fun y => y.tag == item.tag) := rfl
      have hsub : List.Sublist (s.eraseP (fun y => y.tag == item.tag)) s :=
        List.eraseP_sublist s
      have hrest := ih (s.eraseP (fun y => y.tag == item.tag)) A (hs.sublist hsub)
        (fun v => (hsub.filter _).trans (hf v))
      rw [List.foldl_cons, hstep]
      exact ⟨hrest.1, fun v => by simpa [addedItems] using hrest.2 v⟩
    | clear =>
      have hrest := ih [] A (by simp) (fun v => by simp)
      rw [List.foldl_cons]
      exact ⟨hrest.1, fun v => by simpa [addedItems, applyOp, clear_items] using hrest.2 v⟩

/-- C8.  Z-order invariant and stability: after any sequence of
add_item/remove_item/clear_items operations on a fresh SceneManager, the
sequence returned by get_items is ascending by z_index, every z class of it
is a subsequence of the items added with that z_index in insertion order
(so two surviving items of equal z_index appear in their relative insertion
order), and adding items with z-indices [3, 1, 2] yields iteration order
[1, 2, 3]. -/
theorem C8_z_order_stability (ops : List SceneOp) :
    zSorted (get_items (runOps ops)) ∧
    (∀ v : ℤ, List.Sublist
        ((get_items (runOps ops)).filter (fun y => y.z_index == v))
        ((addedItems ops).filter (fun y => y.z_index == v))) ∧
    List.map Drawable.z_index (get_items (runOps
      [SceneOp.add { tag := 0, z_index := 3, visible := true, locked := false,
                     contains := fun _ => false, color := none },
       SceneOp.add { tag := 1, z_index := 1, visible := true, locked := false,
                     contains := fun _ => false, color := none },
       SceneOp.add { tag := 2, z_index := 2, visible := true, locked := false,
                     contains := fun _ => false, color := none }])) = [1, 2, 3] := by
  have h := foldl_applyOp_invariant ops [] [] (by simp) (fun v => by simp)
  have hget : get_items (runOps ops) = runOps ops := pySortByZ_eq_self h.1
  refine ⟨?_, fun v => ?_, ?_⟩
  · rw [hget]
    exact h.1
  · rw [hget]
    simpa using h.2 v
  · rfl

/-- The first match of a scan is the head of the filtered list. -/
lemma find?_eq_head?_filter {α : Type} (p : α → Bool) (l : List α) :
    l.find? p = (l.filter p).head? := by
  induction l with
  | nil => rfl
  | cons a t ih =>
    by_cases h : p a
    · simp [List.find?_cons_of_pos _ h, List.filter_cons, h]
    · rw [List.find?_cons_of_neg _ h, List.filter_cons, if_neg h]
      exact ih

/-- Scanning a list back to front finds the last match. -/
lemma find?_reverse {α : Type} (p : α → Bool) (l : List α) :
    l.reverse.find? p = (l.filter p).getLast? := by
  rw [find?_eq_head?_filter, List.filter_reverse, List.head?_reverse]

/-- In an ascending-z list, a back-to-front scan returns a match of maximal
z_index. -/
lemma find?_reverse_max_z (items : List Drawable) (p : Drawable → Bool) (x : Drawable)
    (hs : zSorted items) (hfind : items.reverse.find? p = some x) :
    ∀ y ∈ items, p y = true → y.z_index ≤ x.z_index := by
  induction items using List.reverseRecOn with
  | nil => simp at hfind
  | append_singleton l a ih =>
    rw [List.reverse_append, List.reverse_singleton, List.singleton_append] at hfind
    replace hs := List.pairwise_append.mp hs
    have hla : ∀ y ∈ l, y.z_index ≤ a.z_index := fun y hy => hs.2.2 y hy a (by simp)
    by_cases hpa : p a
    · have hx : a = x := by
        rw [List.find?_cons_of_pos _ hpa] at hfind
        exact Option.some.inj hfind
      intro y hy hpy
      rcases List.mem_append.mp hy with hyl | hya
      · exact hx ▸ hla y hyl
      · have hya' : y = a := by simpa using hya
        exact hya' ▸ hx ▸ le_refl _
    · have hfind' : l.reverse.find? p = some x := by
        rwa [List.find?_cons_of_neg _ hpa] at hfind
      intro y hy hpy
      rcases List.mem_append.mp hy with hyl | hya
      · exact ih hs.1 hfind' y hyl hpy
      · have hya' : y = a := by simpa using hya
        exact absurd (hya' ▸ hpy) hpa

/-- C3.  For every registry state reachable through the manager API (an
ascending-z `_items` list, the invariant add_item maintains) and every
point, get_item_at_position returns the last visible, unlocked item of the
list containing the point — which by C8's stability is the highest-z hit
with ties won by the later-inserted item —, that result is visible,
unlocked, contains the point and has z_index at least that of every other
visible unlocked item containing the point, and the result is none exactly
when no visible unlocked item contains the point (so a locked or invisible
item is never returned). -/
theorem C3_get_item_at_position_topmost (items : List Drawable) (P : Point)
    (hs : zSorted items) :
    get_item_at_position items P = (items.filter (hits P)).getLast? ∧
    (∀ x, get_item_at_position items P = some x →
      x.visible = true ∧ x.locked = false ∧ x.contains P = true ∧
      ∀ y ∈ items, y.visible = true → y.locked = false → y.contains P = true →
        y.z_index ≤ x.z_index) ∧
    (get_item_at_position items P = none ↔
      ∀ y ∈ items, y.visible = true → y.locked = false → y.contains P = false) := by
  refine ⟨find?_reverse _ _, ?_, ?_⟩
  · intro x hx
    have hpx : hits P x = true := List.find?_some hx
    have hmax := find?_reverse_max_z items (hits P) x hs hx
    rw [hits, Bool.and_eq_true, Bool.and_eq_true] at hpx
    refine ⟨hpx.1.1, by simpa using hpx.1.2, hpx.2, ?_⟩
    intro y hy h1 h2 h3
    exact hmax y hy (by simp [hits, h1, h2, h3])
  · rw [get_item_at_position, List.find?_eq_none]
    constructor
    · intro h y hy h1 h2
      have := h y (List.mem_reverse.mpr hy)
      simpa [hits, h1, h2] using this
    · intro h y hy
      have hmem := List.mem_reverse.mp hy
      simp only [hits, Bool.and_eq_true, not_and, Bool.not_eq_true]
      intro hv
      rcases hv with ⟨h1, h2⟩
      exact h y hmem h1 (by simpa using h2)

/-- C3 witness: a two-item scene, both items hit, the scan result equals the
last filtered hit. -/
theorem C3_get_item_at_position_topmost_witness :
    get_item_at_position
      [{ tag := 0, z_index := 1, visible := true, locked := false,
         contains := fun _ => true, color := none },
       { tag := 1, z_index := 2, visible := true, locked := false,
         contains := fun _ => true, color := none }] (0, 0) =
      (List.filter (hits (0, 0))
        [{ tag := 0, z_index := 1, visible := true, locked := false,
           contains := fun _ => true, color := none },
         { tag := 1, z_index := 2, visible := true, locked := false,
           contains := fun _ => true, color := none }]).getLast? :=
  (C3_get_item_at_position_topmost _ (0, 0)
    (by simp [List.pairwise_cons])).1

/-- C9.  Click-dispatch refinement: on any registry state reachable through
the manager API and any mouse press that is not pan-initiating (not middle,
not Alt+Left), the item to which mousePressEvent dispatches on_clicked is
exactly the item get_item_at_position returns for the scene point of the
click, and nothing is dispatched when that query returns none. -/
theorem C9_click_dispatch_refinement (s : SceneView) (press_pos : Point)
    (button : Button) (alt : Bool) (hs : zSorted s.items)
    (hnp : ¬(button = Button.middle ∨ (button = Button.left ∧ alt = true))) :
    (mousePressEvent s press_pos button alt).2 =
      (get_item_at_position s.items (screen_to_scene s press_pos)).map Drawable.tag := by
  rw [mousePressEvent, if_neg hnp]
  rw [get_items, pySortByZ_eq_self hs]
  rfl

/-- C9 witness: a right-button press over a one-item scene dispatches to the
item the registry query returns. -/
theorem C9_click_dispatch_refinement_witness :
    (mousePressEvent
      { position := (0, 0), zoom := 1, is_panning := false, pan_start_pos := (0, 0),
        camera_start_pos := (0, 0), last_mouse_pos := (0, 0), width := 400, height := 300,
        items := [{ tag := 42, z_index := 0, visible := true, locked := false,
                    contains := fun _ => true, color := none }] } (0, 0) Button.right false).2 =
      (get_item_at_position
        [{ tag := 42, z_index := 0, visible := true, locked := false,
           contains := fun _ => true, color := none }]
        (screen_to_scene
          { position := (0, 0), zoom := 1, is_panning := false, pan_start_pos := (0, 0),
            camera_start_pos := (0, 0), last_mouse_pos := (0, 0), width := 400, height := 300,
            items := [{ tag := 42, z_index := 0, visible := true, locked := false,
                        contains := fun _ => true, color := none }] } (0, 0))).map
        Drawable.tag :=
  C9_click_dispatch_refinement _ (0, 0) Button.right false (by simp)
    (by simp)

end QtIngot
